import Mathlib

/-!
Verification development for the azure_sql_demo repository.

Part 1 models the RBAC subsystem described in `RBAC_DESIGN.md` and the
specification (the repository carries it as a design document only, so the
operational definitions below are modelled from the spec's words).

Part 2 embeds the frontend `useChat` hook and the App → Sidebar prop wiring
from `frontend/src/App.jsx`, `frontend/src/components/Sidebar.jsx` and the
hook source.
-/

namespace Rbac

abbrev User := String
abbrev Project := String
abbrev Role := String
abbrev Resource := String
abbrev Action := String

/-- A (resource, action) grant pair. -/
abbrev Grant := Resource × Action

/-- Modelled from the spec: an Assignment row (User, Project, Role) of the
Assignment Store; the RBAC implementation is absent from the repository
(only `RBAC_DESIGN.md` describes it). An Assignment row never carries
resource/action data. -/
structure ARow where
  user : User
  project : Project
  role : Role
deriving DecidableEq

/-- Modelled from the spec: a Permission row keyed by
(Project, Role, Resource, Action) of the Permission Store; a row present in
the store means the grant is granted. A Permission row is never scoped to an
individual user. -/
structure PRow where
  project : Project
  role : Role
  resource : Resource
  action : Action
deriving DecidableEq

/-- Modelled from the spec: the state visible to the RBAC subsystem — the two
backing stores plus the Resolution Cache keyed by (user, project). -/
structure SysState where
  assigns : List ARow
  perms : List PRow
  cache : User → Project → Option (List Grant)

/-- Modelled from the spec: "fetch all Assignment rows for (user, project) →
set of Roles". -/
def rolesOf (assigns : List ARow) (u : User) (p : Project) : List Role :=
  (assigns.filter (fun a => decide (a.user = u ∧ a.project = p))).map (fun a => a.role)

/-- Modelled from the spec: "fetch all Permission rows for (project, role)"
and read them back as (resource, action) pairs. -/
def permGrants (perms : List PRow) (p : Project) (r : Role) : List Grant :=
  (perms.filter (fun row => decide (row.project = p ∧ row.role = r))).map
    (fun row => (row.resource, row.action))

/-- Modelled from the spec: the pure Permission Resolver read path — union the
per-resource/action grants over the set of roles held by (user, project). -/
def resolveStore (st : SysState) (u : User) (p : Project) : List Grant :=
  (rolesOf st.assigns u p).flatMap (fun r => permGrants st.perms p r)

/-- Modelled from the spec: `resolve` consults the Resolution Cache first;
on miss it computes from the two stores, populates the cache and returns the
grant set together with the updated state. -/
def resolve (st : SysState) (u : User) (p : Project) : List Grant × SysState :=
  match st.cache u p with
  | some g => (g, st)
  | none =>
      let g := resolveStore st u p
      (g, { st with cache := fun v q => if v = u ∧ q = p then some g else st.cache v q })

/-- Modelled from the spec: Gateway operation `updateRolePermissions` —
replaces the Permission rows for exactly (project, role) and then applies
`invalidateByRole(project, role)`, which invalidates every cached entry for
users currently holding that role in that project. -/
def updateRolePermissions (p : Project) (r : Role) (grants : List Grant)
    (st : SysState) : SysState :=
  { assigns := st.assigns
    perms := st.perms.filter (fun row => decide (¬(row.project = p ∧ row.role = r)))
        ++ grants.map (fun g => ⟨p, r, g.1, g.2⟩)
    cache := fun v q =>
      if q = p ∧ r ∈ rolesOf st.assigns v q then none else st.cache v q }

/-- Modelled from the spec: Gateway operation `updateUserAssignments` —
replaces the Assignment rows for exactly (user, project) and then applies
`invalidate(user, project)` on the cache. -/
def updateUserAssignments (u : User) (p : Project) (roles : List Role)
    (st : SysState) : SysState :=
  { assigns := st.assigns.filter (fun a => decide (¬(a.user = u ∧ a.project = p)))
        ++ roles.map (fun r => ⟨u, p, r⟩)
    perms := st.perms
    cache := fun v q => if v = u ∧ q = p then none else st.cache v q }

/-- Modelled from the spec: the Admin Mutation Gateway's tagged-variant
request shape — a mutation is either a definition change (project, role,
grants) or an assignment change (user, project, roles); a blended payload is
unrepresentable. -/
inductive Mutation where
  | defChange (project : Project) (role : Role) (grants : List Grant)
  | assignChange (user : User) (project : Project) (roles : List Role)
deriving DecidableEq

/-- Modelled from the spec: dispatching a Gateway mutation onto the state. -/
def applyMutation (m : Mutation) (st : SysState) : SysState :=
  match m with
  | .defChange p r g => updateRolePermissions p r g st
  | .assignChange u p rs => updateUserAssignments u p rs st

/-- Modelled from the spec: the resolution failure taxonomy relevant to the
read path — the backing store being unavailable. -/
inductive ResolutionFailure where
  | storeUnavailable
deriving DecidableEq

/-- Modelled from the spec: the fallible resolver surface — when the backing
store is unavailable the resolution is surfaced as a failure, distinguishable
from a legitimately empty grant set. -/
def resolveExc (available : Bool) (st : SysState) (u : User) (p : Project) :
    Except ResolutionFailure (List Grant) :=
  if available then .ok (resolveStore st u p) else .error .storeUnavailable

/-- Modelled from the spec: `authorize(user, project, resource, action)`
fails closed — a resolution failure is treated as no access. -/
def authorize (available : Bool) (st : SysState) (u : User) (p : Project)
    (res : Resource) (act : Action) : Bool :=
  match resolveExc available st u p with
  | .ok g => decide ((res, act) ∈ g)
  | .error _ => false

/-- Modelled from the spec: the concrete state of testable-property
Scenario A. -/
def scenarioA : SysState :=
  { assigns := [⟨"U", "Sales", "Viewer"⟩]
    perms := [⟨"Sales", "Viewer", "Orders", "read"⟩]
    cache := fun _ _ => none }

/-- The slice of the `useChat` hook state that `toggleAll` reads and writes
(hook source lines 7–8, 120–127). -/
structure ChatState where
  schema : List String
  selectedTables : List String
deriving DecidableEq

/-- The `toggleAll` function of the `useChat` hook: if any table is selected,
clear the selection, otherwise select the whole schema. -/
def toggleAll (s : ChatState) : ChatState :=
  if s.selectedTables.length > 0 then { s with selectedTables := [] }
  else { s with selectedTables := s.schema }

/-- JavaScript property lookup on an object literal modelled as an
association list; a missing property reads as `none` (undefined). -/
def jsGet (obj : List (String × String)) (k : String) : Option String :=
  (obj.find? (fun e => decide (e.1 = k))).map (fun e => e.2)

/-- The object returned by `useChat` (hook source lines 133–146), each
property mapped to the identifier of the hook-local binding it exposes. -/
def useChatReturn : List (String × String) :=
  [("user", "user"), ("projects", "projects"), ("activeProject", "activeProject"),
   ("setActiveProject", "setActiveProject"), ("schema", "schema"),
   ("selectedTables", "selectedTables"), ("toggleTable", "toggleTable"),
   ("toggleAll", "toggleAll"), ("messages", "messages"),
   ("sendMessage", "sendMessage"), ("isLoading", "isLoading"),
   ("isTyping", "isTyping")]

/-- The props App passes to Sidebar (App.jsx lines 29–38): hook-derived
values are read off the `useChat` return object by destructuring, the local
`isSidebarOpen` state is passed directly. -/
def appSidebarProps : List (String × Option String) :=
  [("isOpen", some "isSidebarOpen"),
   ("projects", jsGet useChatReturn "projects"),
   ("activeProject", jsGet useChatReturn "activeProject"),
   ("onSelectProject", jsGet useChatReturn "setActiveProject"),
   ("schema", jsGet useChatReturn "schema"),
   ("selectedTables", jsGet useChatReturn "selectedTables"),
   ("onToggleTable", jsGet useChatReturn "toggleTable"),
   ("onSelectAll", jsGet useChatReturn "selectAllTables")]

/-- The handler the Sidebar's SELECT ALL / UNSELECT ALL button invokes: the
`onSelectAll` prop (Sidebar.jsx line 64). -/
def sidebarSelectAllOnClick : Option String :=
  (appSidebarProps.find? (fun e => decide (e.1 = "onSelectAll"))).bind (fun e => e.2)

/-- Modelled from the spec: a concrete state used as a witness input — an
empty pair of stores and an empty cache. -/
def emptyState : SysState :=
  { assigns := [], perms := [], cache := fun _ _ => none }

/-- Claim C1: no single write operation alters both a Permission row and an
Assignment row, and each operation writes only rows for exactly its target
key — `updateRolePermissions` leaves the Assignment Store untouched and
writes only Permission rows for exactly (project, role): the Permission rows
of every other key are unchanged and every row in the result either was
already present or is keyed (project, role); `updateUserAssignments` leaves
the Permission Store untouched and writes only Assignment rows for exactly
(user, project), in the same sense; every Gateway mutation leaves at least
one of the two stores untouched, and every representable Gateway payload is
exactly a definition change or exactly an assignment change (a blended
payload is unrepresentable). -/
theorem claim_C1 (st : SysState) :
    (∀ p r g, (updateRolePermissions p r g st).assigns = st.assigns) ∧
    (∀ u p rs, (updateUserAssignments u p rs st).perms = st.perms) ∧
    (∀ m : Mutation, (applyMutation m st).assigns = st.assigns ∨
      (applyMutation m st).perms = st.perms) ∧
    (∀ m : Mutation, (∃ p r g, m = .defChange p r g) ∨
      (∃ u p rs, m = .assignChange u p rs)) ∧
    (∀ p r (g : List Grant),
      (updateRolePermissions p r g st).perms.filter
          (fun row => decide (¬(row.project = p ∧ row.role = r)))
        = st.perms.filter (fun row => decide (¬(row.project = p ∧ row.role = r)))) ∧
    (∀ p r (g : List Grant), ∀ row ∈ (updateRolePermissions p r g st).perms,
      row ∈ st.perms ∨ (row.project = p ∧ row.role = r)) ∧
    (∀ u p (rs : List Role),
      (updateUserAssignments u p rs st).assigns.filter
          (fun a => decide (¬(a.user = u ∧ a.project = p)))
        = st.assigns.filter (fun a => decide (¬(a.user = u ∧ a.project = p)))) ∧
    (∀ u p (rs : List Role), ∀ a ∈ (updateUserAssignments u p rs st).assigns,
      a ∈ st.assigns ∨ (a.user = u ∧ a.project = p)) := by
  refine ⟨fun p r g => rfl, fun u p rs => rfl, fun m => ?_, fun m => ?_,
    fun p r g => ?_, fun p r g row hrow => ?_, fun u p rs => ?_,
    fun u p rs a ha => ?_⟩
  · cases m with
    | defChange p r g => exact Or.inl rfl
    | assignChange u p rs => exact Or.inr rfl
  · cases m with
    | defChange p r g => exact Or.inl ⟨p, r, g, rfl⟩
    | assignChange u p rs => exact Or.inr ⟨u, p, rs, rfl⟩
  · simp only [updateRolePermissions]
    rw [List.filter_append, List.filter_filter]
    have hnil : (g.map (fun gr => PRow.mk p r gr.1 gr.2)).filter
        (fun row => decide (¬(row.project = p ∧ row.role = r))) = [] := by
      simp only [List.filter_eq_nil_iff, List.mem_map]
      rintro row ⟨gr, hgr, rfl⟩
      simp
    have hidem : st.perms.filter
        (fun row => decide (¬(row.project = p ∧ row.role = r))
          && decide (¬(row.project = p ∧ row.role = r)))
        = st.perms.filter (fun row => decide (¬(row.project = p ∧ row.role = r))) :=
      List.filter_congr (fun row _ => Bool.and_self _)
    rw [hnil, hidem]
    simp
  · simp only [updateRolePermissions, List.mem_append, List.mem_filter,
      List.mem_map] at hrow
    rcases hrow with ⟨hmem, _⟩ | ⟨gr, hgr, rfl⟩
    · exact Or.inl hmem
    · exact Or.inr ⟨rfl, rfl⟩
  · simp only [updateUserAssignments]
    rw [List.filter_append, List.filter_filter]
    have hnil : (rs.map (fun r => ARow.mk u p r)).filter
        (fun a => decide (¬(a.user = u ∧ a.project = p))) = [] := by
      simp only [List.filter_eq_nil_iff, List.mem_map]
      rintro a ⟨r, hr, rfl⟩
      simp
    have hidem : st.assigns.filter
        (fun a => decide (¬(a.user = u ∧ a.project = p))
          && decide (¬(a.user = u ∧ a.project = p)))
        = st.assigns.filter (fun a => decide (¬(a.user = u ∧ a.project = p))) :=
      List.filter_congr (fun a _ => Bool.and_self _)
    rw [hnil, hidem]
    simp
  · simp only [updateUserAssignments, List.mem_append, List.mem_filter,
      List.mem_map] at ha
    rcases ha with ⟨hmem, _⟩ | ⟨r, hr, rfl⟩
    · exact Or.inl hmem
    · exact Or.inr ⟨rfl, rfl⟩

/-- Claim C1 witness at a concrete state: the assignment store is untouched
by a permission write, and a concrete row of the written store is keyed by
exactly the mutated (project, role). -/
theorem claim_C1_witness :
    (updateRolePermissions "Sales" "Viewer" [("Orders", "read")] scenarioA).assigns
      = scenarioA.assigns ∧
    (PRow.mk "Sales" "Viewer" "Orders" "read" ∈ scenarioA.perms ∨
      ((PRow.mk "Sales" "Viewer" "Orders" "read").project = "Sales" ∧
        (PRow.mk "Sales" "Viewer" "Orders" "read").role = "Viewer")) :=
  ⟨(claim_C1 scenarioA).1 "Sales" "Viewer" [("Orders", "read")],
   (claim_C1 scenarioA).2.2.2.2.2.1 "Sales" "Viewer" [("Orders", "read")]
     (PRow.mk "Sales" "Viewer" "Orders" "read") (by decide)⟩

/-- Claim C2: after a successful Permission mutation on (project, role), a
`resolve` call for any user holding that role in that project — issued with
no delay — returns the freshly computed grants of the mutated state, never a
stale cached value. -/
theorem claim_C2 (st : SysState) (p : Project) (r : Role) (g : List Grant)
    (u : User) (h : r ∈ rolesOf st.assigns u p) :
    (resolve (updateRolePermissions p r g st) u p).1
      = resolveStore (updateRolePermissions p r g st) u p := by
  have hc : (updateRolePermissions p r g st).cache u p = none := by
    simp [updateRolePermissions, h]
  unfold resolve
  rw [hc]

/-- Claim C2 witness at a concrete state. -/
theorem claim_C2_witness :
    (resolve (updateRolePermissions "Sales" "Viewer" [("Orders", "read")] scenarioA)
        "U" "Sales").1
      = resolveStore (updateRolePermissions "Sales" "Viewer" [("Orders", "read")] scenarioA)
        "U" "Sales" :=
  claim_C2 scenarioA "Sales" "Viewer" [("Orders", "read")] "U" (by decide)

/-- Claim C3: with the backing store unavailable, `authorize` returns false
(deny) for every input rather than granting access, the resolver surfaces
the failure as an error value, and that failure is distinguishable from a
legitimately empty grant set (it is not `.ok` of anything, in particular not
`.ok []`). -/
theorem claim_C3 (st : SysState) (u : User) (p : Project)
    (res : Resource) (act : Action) :
    authorize false st u p res act = false ∧
    resolveExc false st u p = .error .storeUnavailable ∧
    ∀ g : List Grant, resolveExc false st u p ≠ .ok g := by
  refine ⟨rfl, rfl, fun g hcontra => ?_⟩
  simp [resolveExc] at hcontra

/-- Claim C3 witness at a concrete state. -/
theorem claim_C3_witness :
    authorize false scenarioA "U" "Sales" "Orders" "read" = false :=
  (claim_C3 scenarioA "U" "Sales" "Orders" "read").1

/-- Claim C4: when the Assignment Store holds no Assignment row for
(user, project), `resolve` returns an empty grant set and does not fail. -/
theorem claim_C4 (st : SysState) (u : User) (p : Project)
    (h : ∀ a ∈ st.assigns, ¬(a.user = u ∧ a.project = p)) :
    resolveExc true st u p = .ok [] := by
  have hr : rolesOf st.assigns u p = [] := by
    simp only [rolesOf, List.map_eq_nil_iff, List.filter_eq_nil_iff]
    intro a ha
    simpa using h a ha
  simp [resolveExc, resolveStore, hr]

/-- Claim C4 witness at a concrete state. -/
theorem claim_C4_witness : resolveExc true emptyState "U" "Sales" = .ok [] :=
  claim_C4 emptyState "U" "Sales" (by simp [emptyState])

/-- Claim C5: in Scenario A — user U assigned role Viewer in Sales, with
Permission("Sales","Viewer","Orders","read") granted — authorize grants
(Orders, read) and denies (Orders, write). -/
theorem claim_C5 :
    authorize true scenarioA "U" "Sales" "Orders" "read" = true ∧
    authorize true scenarioA "U" "Sales" "Orders" "write" = false := by
  constructor <;> decide

/-- Claim C6: an Assignment mutation on (user, project) leaves every other
user's cached entry, freshly-resolved grant set and `resolve` result
unchanged, at every project. -/
theorem claim_C6 (st : SysState) (u : User) (p : Project) (rs : List Role)
    (v : User) (hv : v ≠ u) (q : Project) :
    (updateUserAssignments u p rs st).cache v q = st.cache v q ∧
    resolveStore (updateUserAssignments u p rs st) v q = resolveStore st v q ∧
    (resolve (updateUserAssignments u p rs st) v q).1 = (resolve st v q).1 := by
  have hcache : (updateUserAssignments u p rs st).cache v q = st.cache v q := by
    simp [updateUserAssignments, hv]
  have hroles : rolesOf (updateUserAssignments u p rs st).assigns v q
      = rolesOf st.assigns v q := by
    simp only [updateUserAssignments, rolesOf, List.filter_append, List.map_append]
    have h1 : (rs.map (fun r => ARow.mk u p r)).filter
        (fun a => decide (a.user = v ∧ a.project = q)) = [] := by
      simp only [List.filter_eq_nil_iff, List.mem_map]
      rintro a ⟨r, hr, rfl⟩
      simp [Ne.symm hv]
    have h2 : (st.assigns.filter (fun a => decide (¬(a.user = u ∧ a.project = p)))).filter
        (fun a => decide (a.user = v ∧ a.project = q))
        = st.assigns.filter (fun a => decide (a.user = v ∧ a.project = q)) := by
      rw [List.filter_filter]
      apply List.filter_congr
      intro a _
      by_cases hav : a.user = v ∧ a.project = q
      · have hnu : ¬(a.user = u ∧ a.project = p) :=
          fun hcontra => hv (hav.1.symm.trans hcontra.1)
        simp [hav, hnu]
        exact Or.inl hv
      · simp [hav]
    rw [h1, h2]
    simp
  have hfresh : resolveStore (updateUserAssignments u p rs st) v q
      = resolveStore st v q := by
    unfold resolveStore
    rw [hroles]
    rfl
  refine ⟨hcache, hfresh, ?_⟩
  unfold resolve
  rw [hcache]
  cases hcv : st.cache v q with
  | some gs => rfl
  | none => simpa using hfresh

/-- Claim C6 witness at a concrete state. -/
theorem claim_C6_witness :
    (updateUserAssignments "U" "Sales" ["Editor"] scenarioA).cache "V" "Sales"
      = scenarioA.cache "V" "Sales" ∧
    resolveStore (updateUserAssignments "U" "Sales" ["Editor"] scenarioA) "V" "Sales"
      = resolveStore scenarioA "V" "Sales" ∧
    (resolve (updateUserAssignments "U" "Sales" ["Editor"] scenarioA) "V" "Sales").1
      = (resolve scenarioA "V" "Sales").1 :=
  claim_C6 scenarioA "U" "Sales" ["Editor"] "V" (by decide) "Sales"

/-- Applying `updateRolePermissions` twice with identical grants leaves the
whole system state exactly as after one application. -/
theorem updateRolePermissions_idem (p : Project) (r : Role) (g : List Grant)
    (st : SysState) :
    updateRolePermissions p r g (updateRolePermissions p r g st)
      = updateRolePermissions p r g st := by
  unfold updateRolePermissions
  congr 1
  · rw [List.filter_append, List.filter_filter]
    have hnil : (g.map (fun gr => PRow.mk p r gr.1 gr.2)).filter
        (fun row => decide (¬(row.project = p ∧ row.role = r))) = [] := by
      simp only [List.filter_eq_nil_iff, List.mem_map]
      rintro row ⟨gr, hgr, rfl⟩
      simp
    have hidem : st.perms.filter
        (fun row => decide (¬(row.project = p ∧ row.role = r))
          && decide (¬(row.project = p ∧ row.role = r)))
        = st.perms.filter (fun row => decide (¬(row.project = p ∧ row.role = r))) :=
      List.filter_congr (fun row _ => Bool.and_self _)
    rw [hnil, hidem]
    simp
  · funext v q
    by_cases hcond : q = p ∧ r ∈ rolesOf st.assigns v q
    · obtain ⟨rfl, hmem⟩ := hcond
      simp [hmem]
    · simp [hcond]

/-- Claim C7: calling `updateRolePermissions` twice in succession with
identical grants yields the same resolved state for every (user, project)
pair as calling it once. -/
theorem claim_C7 (st : SysState) (p : Project) (r : Role) (g : List Grant)
    (u : User) (q : Project) :
    (resolve (updateRolePermissions p r g (updateRolePermissions p r g st)) u q).1
      = (resolve (updateRolePermissions p r g st) u q).1 := by
  rw [updateRolePermissions_idem]

/-- Claim C8: after writing grants through the Gateway for (project, role),
reading the Permission rows for that (project, role) back returns exactly
the written (resource, action) pairs; a subsequent `resolve` for a user
holding that role returns the union over the user's held roles, and when the
user holds exactly that one role it returns exactly the written pairs. -/
theorem claim_C8 (st : SysState) (p : Project) (r : Role) (g : List Grant)
    (u : User) (h : r ∈ rolesOf st.assigns u p) :
    permGrants (updateRolePermissions p r g st).perms p r = g ∧
    (resolve (updateRolePermissions p r g st) u p).1
      = (rolesOf st.assigns u p).flatMap
          (fun rr => permGrants (updateRolePermissions p r g st).perms p rr) ∧
    (rolesOf st.assigns u p = [r] →
      (resolve (updateRolePermissions p r g st) u p).1 = g) := by
  have hread : permGrants (updateRolePermissions p r g st).perms p r = g := by
    simp only [updateRolePermissions, permGrants, List.filter_append, List.filter_filter]
    have h1 : st.perms.filter
        (fun row => decide (row.project = p ∧ row.role = r)
          && decide (¬(row.project = p ∧ row.role = r))) = [] := by
      simp only [List.filter_eq_nil_iff]
      intro row hrow
      by_cases hK : row.project = p ∧ row.role = r <;> simp [hK]
    have h2 : (g.map (fun gr => PRow.mk p r gr.1 gr.2)).filter
        (fun row => decide (row.project = p ∧ row.role = r))
        = g.map (fun gr => PRow.mk p r gr.1 gr.2) := by
      rw [List.filter_eq_self]
      rintro row hrow
      rcases List.mem_map.mp hrow with ⟨gr, hgr, rfl⟩
      simp
    rw [h1, h2]
    simp [Function.comp_def]
  have hc : (updateRolePermissions p r g st).cache u p = none := by
    simp [updateRolePermissions, h]
  have hres : (resolve (updateRolePermissions p r g st) u p).1
      = (rolesOf st.assigns u p).flatMap
          (fun rr => permGrants (updateRolePermissions p r g st).perms p rr) := by
    unfold resolve
    rw [hc]
    rfl
  refine ⟨hread, hres, fun hexact => ?_⟩
  rw [hres, hexact, List.flatMap_singleton, hread]

/-- Claim C8 witness at a concrete state. -/
theorem claim_C8_witness :
    permGrants (updateRolePermissions "Sales" "Viewer"
        [("Customers", "read")] scenarioA).perms "Sales" "Viewer"
      = [("Customers", "read")] :=
  (claim_C8 scenarioA "Sales" "Viewer" [("Customers", "read")] "U" (by decide)).1

/-- Claim C9: the object returned by `useChat` has no property named
`selectAllTables`, so App's destructured `selectAllTables` is undefined and
is what the Sidebar's SELECT ALL / UNSELECT ALL button invokes as its
handler; `toggleAll` is among the hook's returned properties but is not the
value of any prop App passes to Sidebar, so it is unreachable from the
rendered UI. -/
theorem claim_C9 :
    jsGet useChatReturn "selectAllTables" = none ∧
    sidebarSelectAllOnClick = none ∧
    jsGet useChatReturn "toggleAll" = some "toggleAll" ∧
    appSidebarProps.all (fun e => decide (¬ e.2 = some "toggleAll")) = true := by
  refine ⟨?_, ?_, ?_, ?_⟩ <;> decide

/-- Claim C10: `toggleAll` maps a non-empty selection to the empty selection
and an empty selection to the full schema list, and never changes the schema
itself. -/
theorem claim_C10 (s : ChatState) :
    (s.selectedTables ≠ [] → (toggleAll s).selectedTables = []) ∧
    (s.selectedTables = [] → (toggleAll s).selectedTables = s.schema) ∧
    (toggleAll s).schema = s.schema := by
  cases hs : s.selectedTables with
  | nil =>
      refine ⟨fun hcontra => absurd rfl hcontra, fun _ => ?_, ?_⟩ <;>
        simp [toggleAll, hs]
  | cons a t =>
      refine ⟨fun _ => ?_, fun hcontra => ?_, ?_⟩
      · simp [toggleAll, hs]
      · cases hcontra
      · simp [toggleAll, hs]

/-- Claim C10 witness at a concrete state. -/
theorem claim_C10_witness :
    (toggleAll ⟨["t1", "t2"], ["t1"]⟩).selectedTables = [] :=
  (claim_C10 ⟨["t1", "t2"], ["t1"]⟩).1 (by decide)

end Rbac
